import Mathlib

/-!
Verification of the macOS code-signing orchestrator
(`build_files/buildbot/codesign/macos_code_signer.py`).

Paths are embedded the way `pathlib` exposes them to this module: a
relative path is its tuple of `parts` (a `List String` of segments), the
base directory is kept as the plain string an absolute `Path` renders to,
and the accessors `name` / `suffix` used by the classifier are embedded
from their CPython `pathlib` semantics.
-/

/-- Modelled from the spec: the class `AbsoluteAndRelativeFileName`
(module `codesign.absolute_and_relative_filename`) is not part of the
sources at hand.  The spec describes it as the immutable pair
(`baseDir`, `relativePath`) with derived accessor
`absolutePath = baseDir joined with relativePath`; `relative_filepath`
is held as its list of path segments (`Path.parts`). -/
structure AbsoluteAndRelativeFileName where
  base_dir : String
  relative_filepath : List String
deriving DecidableEq

/-- Modelled from the spec: `absolutePath` = `baseDir` joined with
`relativePath` (rendered as the string handed to the external command). -/
def absolute_filepath (file : AbsoluteAndRelativeFileName) : String :=
  file.base_dir ++ "/" ++ String.intercalate "/" file.relative_filepath

/-- `Path.name` of the relative path: its final segment (`''` when the
path has no segments), as in CPython `pathlib`. -/
def pathName (file : AbsoluteAndRelativeFileName) : String :=
  (file.relative_filepath.getLast?).getD ""

/-- Whether one character list starts with another. -/
def charsStartWith : List Char → List Char → Bool
  | _, [] => true
  | [], _ :: _ => false
  | c :: cs, p :: ps => decide (c = p) && charsStartWith cs ps

/-- Python `str.startswith` (kernel-reducible embedding). -/
def strStartsWith (s p : String) : Bool :=
  charsStartWith s.toList p.toList

/-- Python `str.endswith` (kernel-reducible embedding). -/
def strEndsWith (s p : String) : Bool :=
  charsStartWith s.toList.reverse p.toList.reverse

/-- Index of the last occurrence of `'.'` in a list of characters
(meaningful only when a dot is present). -/
def lastDotIndex (cs : List Char) : Nat :=
  cs.length - 1 - (cs.reverse).indexOf '.'

/-- `PurePath.suffix` semantics from CPython `pathlib`, applied to a file
name: the substring from the last dot, provided that dot is neither the
first character nor the last one; otherwise the empty string. -/
def pySuffix (name : String) : String :=
  let cs := name.toList
  if '.' ∈ cs then
    let i := lastDotIndex cs
    if 0 < i ∧ i < cs.length - 1 then String.mk (cs.drop i) else ""
  else ""

/-- Module constant `EXTENSIONS_TO_BE_SIGNED` (the set is embedded as the
list of its elements). -/
def EXTENSIONS_TO_BE_SIGNED : List String := [".dylib", ".so", ".dmg"]

/-- Module constant `NAME_PREFIXES_TO_BE_SIGNED`. -/
def NAME_PREFIXES_TO_BE_SIGNED : List String := ["python"]

/-- `is_file_from_bundle`: the relative path has at least one segment and
its first segment ends with `.app`. -/
def is_file_from_bundle (file : AbsoluteAndRelativeFileName) : Bool :=
  match file.relative_filepath with
  | [] => false
  | p0 :: _ => strEndsWith p0 ".app"

/-- `get_bundle_from_file`: asserts `is_file_from_bundle` (embedded as
returning `none` when the assertion fires), then builds the descriptor of
the bundle from `base_dir` and the first path segment.  The descriptor's
relative path follows the spec's description of the constructor
(`BundleRef` = `baseDir` + first path segment). -/
def get_bundle_from_file (file : AbsoluteAndRelativeFileName) :
    Option AbsoluteAndRelativeFileName :=
  if is_file_from_bundle file then
    some { base_dir := file.base_dir,
           relative_filepath := file.relative_filepath.take 1 }
  else
    none

/-- `is_bundle_executable_file`: inside a bundle, at least three path
segments, and `parts[1:3] == ('Contents', 'MacOS')`. -/
def is_bundle_executable_file (file : AbsoluteAndRelativeFileName) : Bool :=
  if !is_file_from_bundle file then false
  else
    let parts := file.relative_filepath
    if parts.length < 3 then false
    else if !((parts.drop 1).take 2 = ["Contents", "MacOS"] : Bool) then false
    else true

/-- `MacOSCodeSigner.check_file_is_to_be_signed`: bundle executable, or
base name starting with a configured prefix, or suffix in the configured
extension set. -/
def check_file_is_to_be_signed (file : AbsoluteAndRelativeFileName) : Bool :=
  if is_bundle_executable_file file then true
  else
    let base_name := pathName file
    if NAME_PREFIXES_TO_BE_SIGNED.any (fun p => strStartsWith base_name p) then true
    else decide (pySuffix (pathName file) ∈ EXTENSIONS_TO_BE_SIGNED)

/-- Modelled from the spec: the configuration object (read through
`self.config` of `BaseCodeSigner`, which is not among the sources at
hand) exposes the signing identity and the entitlements file path. -/
structure SigningConfig where
  MACOS_ENTITLEMENTS_FILE : String
  MACOS_CODESIGN_IDENTITY : String
deriving DecidableEq

/-- The argv list built by `MacOSCodeSigner.codesign_remove_signature`
and handed to `run_command_or_mock`. -/
def codesign_remove_signature_command
    (file : AbsoluteAndRelativeFileName) : List String :=
  ["codesign", "--remove-signature", absolute_filepath file]

/-- The argv list built by `MacOSCodeSigner.codesign_file` and handed to
`run_command_or_mock`.  Note the f-string
`f'--entitlements="\x7bentitlements_file\x7d"'` in the source: the double
quote characters around the configured path are part of the argument. -/
def codesign_file_command (config : SigningConfig)
    (file : AbsoluteAndRelativeFileName) : List String :=
  ["codesign",
   "--timestamp",
   "--options", "runtime",
   "--entitlements=\"" ++ config.MACOS_ENTITLEMENTS_FILE ++ "\"",
   "--sign", config.MACOS_CODESIGN_IDENTITY,
   absolute_filepath file]

/-- Externally observable steps of one orchestration run:
`removeSignature f` is an invocation of `codesign_remove_signature` on
`f` (which runs `codesign_remove_signature_command f`), `codesignFile f`
an invocation of `codesign_file` on `f` (which runs
`codesign_file_command config f`), and `signedFilesSummary n` the
`Signed n files` report emitted after the per-file pass. -/
inductive Event where
  | removeSignature (file : AbsoluteAndRelativeFileName) : Event
  | codesignFile (file : AbsoluteAndRelativeFileName) : Event
  | signedFilesSummary (numSigned : Nat) : Event
deriving DecidableEq

/-- Number of occurrences of an event in a trace. -/
def countEvent (e : Event) (t : List Event) : Nat :=
  (t.filter (fun x => decide (x = e))).length

/-- Automaton checking that a trace is a sequence of
`removeSignature f` / `codesignFile f` pairs (same `f`, remove first)
interleaved with summary events: the `Option` state remembers a pending
`removeSignature` that must be followed at once by the matching
`codesignFile`. -/
def pairedFrom : Option AbsoluteAndRelativeFileName → List Event → Bool
  | none, [] => true
  | none, Event.removeSignature f :: rest => pairedFrom (some f) rest
  | none, Event.codesignFile _ :: _ => false
  | none, Event.signedFilesSummary _ :: rest => pairedFrom none rest
  | some _, [] => false
  | some f, Event.codesignFile g :: rest =>
      decide (f = g) && pairedFrom none rest
  | some _, Event.removeSignature _ :: _ => false
  | some _, Event.signedFilesSummary _ :: _ => false

/-- A trace in which every `codesignFile` is immediately preceded by the
matching `removeSignature` and every `removeSignature` is immediately
followed by the matching `codesignFile`. -/
def remove_sign_paired (t : List Event) : Bool :=
  pairedFrom none t

/-- Events issued by the loop of `MacOSCodeSigner.codesign_all_files`:
for each file in input order, either skip it or remove its signature and
then sign it. -/
def all_files_trace :
    List AbsoluteAndRelativeFileName → List Event
  | [] => []
  | file :: rest =>
    if check_file_is_to_be_signed file then
      Event.removeSignature file :: Event.codesignFile file ::
        all_files_trace rest
    else
      all_files_trace rest

/-- The `signed_files` list accumulated by the same loop: the eligible
files, in input order. -/
def signed_files :
    List AbsoluteAndRelativeFileName → List AbsoluteAndRelativeFileName
  | [] => []
  | file :: rest =>
    if check_file_is_to_be_signed file then
      file :: signed_files rest
    else
      signed_files rest

/-- The `have_ignored_files` flag of the same loop: set as soon as some
file is skipped. -/
def have_ignored_files :
    List AbsoluteAndRelativeFileName → Bool
  | [] => false
  | file :: rest =>
    if check_file_is_to_be_signed file then
      have_ignored_files rest
    else
      true

/-- `MacOSCodeSigner.codesign_all_files`: runs the per-file loop, then —
only when at least one file was ignored — reports the number of signed
files; returns `True` unconditionally. -/
def codesign_all_files
    (files : List AbsoluteAndRelativeFileName) : List Event × Bool :=
  (all_files_trace files ++
    (if have_ignored_files files then
      [Event.signedFilesSummary (signed_files files).length]
    else []),
   true)

/-- The loop of `MacOSCodeSigner.codesign_bundles`, carrying the
`signed_bundles` set (embedded as the list of bundle relative paths added
so far): files not from a bundle are skipped, a file whose bundle's
relative path is already in the set is skipped, otherwise the bundle is
signed (remove then sign) and its relative path added to the set. -/
def bundles_loop :
    List AbsoluteAndRelativeFileName → List (List String) → List Event
  | [], _ => []
  | file :: rest, signed_bundles =>
    if !is_file_from_bundle file then
      bundles_loop rest signed_bundles
    else
      match get_bundle_from_file file with
      | none => bundles_loop rest signed_bundles
      | some bundle =>
        if bundle.relative_filepath ∈ signed_bundles then
          bundles_loop rest signed_bundles
        else
          Event.removeSignature bundle :: Event.codesignFile bundle ::
            bundles_loop rest (bundle.relative_filepath :: signed_bundles)

/-- `MacOSCodeSigner.codesign_bundles`: runs the bundle loop starting
from the empty `signed_bundles` set; returns `True` unconditionally. -/
def codesign_bundles
    (files : List AbsoluteAndRelativeFileName) : List Event × Bool :=
  (bundles_loop files [], true)

/-- `MacOSCodeSigner.sign_all_files`: per-file pass, abort if it reports
failure, then bundle pass.  Yields the full event trace of a run. -/
def sign_all_files
    (files : List AbsoluteAndRelativeFileName) : List Event :=
  let (t1, ok1) := codesign_all_files files
  if !ok1 then t1
  else t1 ++ (codesign_bundles files).1

example : pySuffix "standalone.dylib" = ".dylib" := by decide
example : pySuffix ".bashrc" = "" := by decide
example : pySuffix "foo." = "" := by decide
example : pySuffix "a.tar.dmg" = ".dmg" := by decide
example : is_file_from_bundle ⟨"/out", ["App.app", "Contents", "MacOS", "App"]⟩ = true := by decide
example : is_bundle_executable_file ⟨"/out", ["App.app", "Contents", "MacOS", "App"]⟩ = true := by decide
example : is_bundle_executable_file ⟨"/out", ["App.app", "Contents", "Resources", "x"]⟩ = false := by decide
example : check_file_is_to_be_signed ⟨"/out", ["readme.txt"]⟩ = false := by decide
example : check_file_is_to_be_signed ⟨"/out", ["standalone.dylib"]⟩ = true := by decide
example : check_file_is_to_be_signed ⟨"/out", ["App.app", "Contents", "Resources", "python3.9"]⟩ = true := by decide
example : get_bundle_from_file ⟨"/out", ["App.app", "Contents", "MacOS", "App"]⟩
    = some ⟨"/out", ["App.app"]⟩ := by decide
example : absolute_filepath ⟨"/out", ["App.app", "Contents", "MacOS", "App"]⟩
    = "/out/App.app/Contents/MacOS/App" := by decide
/-- `check_file_is_to_be_signed` as the disjunction of its three
branches. -/
lemma check_file_is_to_be_signed_eq (file : AbsoluteAndRelativeFileName) :
    check_file_is_to_be_signed file
      = (is_bundle_executable_file file
         || NAME_PREFIXES_TO_BE_SIGNED.any
              (fun p => strStartsWith (pathName file) p)
         || decide (pySuffix (pathName file) ∈ EXTENSIONS_TO_BE_SIGNED)) := by
  simp only [check_file_is_to_be_signed]
  cases hb : is_bundle_executable_file file <;>
    cases hp : NAME_PREFIXES_TO_BE_SIGNED.any
        (fun p => strStartsWith (pathName file) p) <;>
      simp [hb, hp]

/-- C1: for every `FileRef` recognised by `is_file_from_bundle`,
`get_bundle_from_file` returns a descriptor with the same base directory
whose relative path is exactly the first segment of the input's relative
path (so `"App.app/Contents/MacOS/App"` yields `"App.app"`). -/
theorem C1_get_bundle_from_file (file : AbsoluteAndRelativeFileName)
    (h : is_file_from_bundle file = true) :
    get_bundle_from_file file
      = some ⟨file.base_dir, [file.relative_filepath.headI]⟩ := by
  cases hrel : file.relative_filepath with
  | nil => simp [is_file_from_bundle, hrel] at h
  | cons p0 rest => simp [get_bundle_from_file, h, hrel]

/-- C1 witness: the descriptor of the bundle of
`"App.app/Contents/MacOS/App"` has relative path `"App.app"`. -/
theorem C1_witness :
    get_bundle_from_file ⟨"/out", ["App.app", "Contents", "MacOS", "App"]⟩
      = some ⟨"/out", ["App.app"]⟩ :=
  C1_get_bundle_from_file
    ⟨"/out", ["App.app", "Contents", "MacOS", "App"]⟩ (by decide)

/-- C2 counterexample: the sign command does not carry the entitlements
path bare — the f-string in `codesign_file` wraps it in literal double
quote characters, so the argv differs from the claimed one. -/
theorem C2_counterexample :
    codesign_file_command ⟨"/ent/entitlements.plist", "Developer ID"⟩
        ⟨"/out", ["standalone.dylib"]⟩
      ≠ ["codesign", "--timestamp", "--options", "runtime",
         "--entitlements=/ent/entitlements.plist",
         "--sign", "Developer ID", "/out/standalone.dylib"] := by decide

/-- C2 (amended): the sign command is
`codesign --timestamp --options runtime --entitlements="<path>" --sign
<identity> <absolutePath>` — the entitlements path from the
configuration wrapped in literal double quote characters. -/
theorem C2_codesign_file_command (config : SigningConfig)
    (file : AbsoluteAndRelativeFileName) :
    codesign_file_command config file
      = ["codesign", "--timestamp", "--options", "runtime",
         "--entitlements=\"" ++ config.MACOS_ENTITLEMENTS_FILE ++ "\"",
         "--sign", config.MACOS_CODESIGN_IDENTITY,
         absolute_filepath file] := rfl

/-- C4: `check_file_is_to_be_signed` is true iff the file is a bundle
executable, or its base name starts with a configured name prefix
(default `python`), or its suffix is one of the configured extensions
(default `.dylib`, `.so`, `.dmg`); in particular `.dylib`, `.so` and
`.dmg` files are eligible and a `.txt` file matching no other rule is
not. -/
theorem C4_check_file_is_to_be_signed :
    (∀ file : AbsoluteAndRelativeFileName,
        check_file_is_to_be_signed file = true ↔
          (is_bundle_executable_file file = true
           ∨ (∃ p ∈ NAME_PREFIXES_TO_BE_SIGNED,
                strStartsWith (pathName file) p = true)
           ∨ pySuffix (pathName file) ∈ EXTENSIONS_TO_BE_SIGNED))
    ∧ check_file_is_to_be_signed ⟨"/out", ["standalone.dylib"]⟩ = true
    ∧ check_file_is_to_be_signed ⟨"/out", ["module.so"]⟩ = true
    ∧ check_file_is_to_be_signed ⟨"/out", ["image.dmg"]⟩ = true
    ∧ check_file_is_to_be_signed ⟨"/out", ["readme.txt"]⟩ = false := by
  refine ⟨fun file => ?_, by decide, by decide, by decide, by decide⟩
  rw [check_file_is_to_be_signed_eq]
  simp only [Bool.or_eq_true, List.any_eq_true, decide_eq_true_eq]
  rw [or_assoc]

/-- C4 witness: a file named `python3.9` under `Contents/Resources` is
eligible through the name-prefix rule. -/
theorem C4_witness :
    check_file_is_to_be_signed
      ⟨"/out", ["App.app", "Contents", "Resources", "python3.9"]⟩ = true :=
  (C4_check_file_is_to_be_signed.1
      ⟨"/out", ["App.app", "Contents", "Resources", "python3.9"]⟩).mpr
    (Or.inr (Or.inl ⟨"python", by decide, by decide⟩))

/-- C5: `is_bundle_executable_file` is true iff the file is from a
bundle, has at least three path segments, and segments 2 and 3 are
exactly `Contents`, `MacOS`; and whenever the first segment does not end
in `.app`, both `is_file_from_bundle` and `is_bundle_executable_file`
are false. -/
theorem C5_is_bundle_executable_file :
    (∀ file : AbsoluteAndRelativeFileName,
        is_bundle_executable_file file = true ↔
          (is_file_from_bundle file = true
           ∧ 3 ≤ file.relative_filepath.length
           ∧ (file.relative_filepath.drop 1).take 2 = ["Contents", "MacOS"]))
    ∧ (∀ (file : AbsoluteAndRelativeFileName) (p0 : String)
          (rest : List String),
        file.relative_filepath = p0 :: rest →
        strEndsWith p0 ".app" = false →
        is_file_from_bundle file = false
          ∧ is_bundle_executable_file file = false) := by
  constructor
  · intro file
    cases hb : is_file_from_bundle file with
    | false => simp [is_bundle_executable_file, hb]
    | true =>
      by_cases hlen : file.relative_filepath.length < 3
      · simp only [is_bundle_executable_file, hb]
        simp [hlen]
      · by_cases hseg :
            (file.relative_filepath.drop 1).take 2 = ["Contents", "MacOS"]
        · simp only [is_bundle_executable_file, hb]
          rw [List.drop_one] at hseg
          simp [hlen, hseg]
          omega
        · simp only [is_bundle_executable_file, hb]
          rw [List.drop_one] at hseg
          simp [hlen, hseg]
  · intro file p0 rest hrel hend
    have h1 : is_file_from_bundle file = false := by
      simp [is_file_from_bundle, hrel, hend]
    exact ⟨h1, by simp [is_bundle_executable_file, h1]⟩

/-- C5 witness: a file whose first segment `binaries` does not end in
`.app` is neither from a bundle nor a bundle executable. -/
theorem C5_witness :
    is_file_from_bundle ⟨"/out", ["binaries", "Contents", "MacOS", "x"]⟩
        = false
      ∧ is_bundle_executable_file
          ⟨"/out", ["binaries", "Contents", "MacOS", "x"]⟩ = false :=
  C5_is_bundle_executable_file.2
    ⟨"/out", ["binaries", "Contents", "MacOS", "x"]⟩
    "binaries" ["Contents", "MacOS", "x"] rfl (by decide)

/-- C7: on the end-to-end input under `/out`, the run signs the three
eligible files in order (each preceded by a signature removal), ignores
`readme.txt`, reports 3 signed files, and then signs the bundle
`Foo.app` exactly once. -/
theorem C7_end_to_end :
    sign_all_files
      [⟨"/out", ["Foo.app", "Contents", "MacOS", "Foo"]⟩,
       ⟨"/out", ["Foo.app", "Contents", "Resources", "lib.dylib"]⟩,
       ⟨"/out", ["standalone.dylib"]⟩,
       ⟨"/out", ["readme.txt"]⟩]
    = [Event.removeSignature ⟨"/out", ["Foo.app", "Contents", "MacOS", "Foo"]⟩,
       Event.codesignFile ⟨"/out", ["Foo.app", "Contents", "MacOS", "Foo"]⟩,
       Event.removeSignature
         ⟨"/out", ["Foo.app", "Contents", "Resources", "lib.dylib"]⟩,
       Event.codesignFile
         ⟨"/out", ["Foo.app", "Contents", "Resources", "lib.dylib"]⟩,
       Event.removeSignature ⟨"/out", ["standalone.dylib"]⟩,
       Event.codesignFile ⟨"/out", ["standalone.dylib"]⟩,
       Event.signedFilesSummary 3,
       Event.removeSignature ⟨"/out", ["Foo.app"]⟩,
       Event.codesignFile ⟨"/out", ["Foo.app"]⟩] := by decide

/-- C8: both passes return `True` unconditionally, so `sign_all_files`
always runs the per-file pass followed by the bundle pass and the
abort-on-false short-circuit is never taken. -/
theorem C8_returns_true (files : List AbsoluteAndRelativeFileName) :
    (codesign_all_files files).2 = true
      ∧ (codesign_bundles files).2 = true
      ∧ sign_all_files files
          = (codesign_all_files files).1 ++ (codesign_bundles files).1 :=
  ⟨rfl, rfl, rfl⟩

/-- C9: `get_bundle_from_file` fails its assertion (embedded as `none`)
exactly when `is_file_from_bundle` is false, and returns a descriptor
whenever `is_file_from_bundle` is true. -/
theorem C9_get_bundle_assert (file : AbsoluteAndRelativeFileName) :
    (is_file_from_bundle file = false → get_bundle_from_file file = none)
      ∧ (is_file_from_bundle file = true →
          ∃ bundle, get_bundle_from_file file = some bundle) := by
  constructor
  · intro h
    simp [get_bundle_from_file, h]
  · intro h
    refine ⟨⟨file.base_dir, file.relative_filepath.take 1⟩, ?_⟩
    simp [get_bundle_from_file, h]

/-- C9 witness: `readme.txt` is not from a bundle and the assertion
fires; `App.app/x` is from a bundle and a descriptor is returned. -/
theorem C9_witness :
    get_bundle_from_file ⟨"/out", ["readme.txt"]⟩ = none
      ∧ ∃ bundle,
          get_bundle_from_file ⟨"/out", ["App.app", "x"]⟩ = some bundle :=
  ⟨(C9_get_bundle_assert ⟨"/out", ["readme.txt"]⟩).1 (by decide),
   (C9_get_bundle_assert ⟨"/out", ["App.app", "x"]⟩).2 (by decide)⟩

/-- C10: on the empty input, the run issues no events at all — no
remove-signature or sign command in either pass — and the per-file pass
does not emit the signed-files summary since no file was ignored. -/
theorem C10_empty_input :
    sign_all_files [] = [] ∧ have_ignored_files [] = false := by decide

/-- Unfolding `countEvent` over a cons cell. -/
lemma countEvent_cons (e x : Event) (t : List Event) :
    countEvent e (x :: t) = (if x = e then 1 else 0) + countEvent e t := by
  by_cases h : x = e <;> simp [countEvent, List.filter_cons, h, Nat.add_comm]

/-- `bundles_loop` skips a file that is not from a bundle. -/
lemma bundles_loop_cons_not_bundle (f : AbsoluteAndRelativeFileName)
    (rest : List AbsoluteAndRelativeFileName) (sb : List (List String))
    (hb : is_file_from_bundle f = false) :
    bundles_loop (f :: rest) sb = bundles_loop rest sb := by
  simp [bundles_loop, hb]

/-- `bundles_loop` skips a file whose bundle is already in the signed
set. -/
lemma bundles_loop_cons_mem (f : AbsoluteAndRelativeFileName)
    (rest : List AbsoluteAndRelativeFileName) (sb : List (List String))
    (hb : is_file_from_bundle f = true)
    (hm : f.relative_filepath.take 1 ∈ sb) :
    bundles_loop (f :: rest) sb = bundles_loop rest sb := by
  simp [bundles_loop, hb, get_bundle_from_file, hm]

/-- `bundles_loop` signs the bundle of the first file from a bundle not
yet in the signed set, then records it. -/
lemma bundles_loop_cons_new (f : AbsoluteAndRelativeFileName)
    (rest : List AbsoluteAndRelativeFileName) (sb : List (List String))
    (hb : is_file_from_bundle f = true)
    (hm : f.relative_filepath.take 1 ∉ sb) :
    bundles_loop (f :: rest) sb
      = Event.removeSignature ⟨f.base_dir, f.relative_filepath.take 1⟩
        :: Event.codesignFile ⟨f.base_dir, f.relative_filepath.take 1⟩
        :: bundles_loop rest (f.relative_filepath.take 1 :: sb) := by
  simp [bundles_loop, hb, get_bundle_from_file, hm]

/-- Once a bundle's relative path is in the signed set, the loop never
signs that bundle again. -/
lemma bundles_loop_count_zero_of_mem :
    ∀ (files : List AbsoluteAndRelativeFileName) (sb : List (List String))
      (b : AbsoluteAndRelativeFileName),
      b.relative_filepath ∈ sb →
      countEvent (Event.codesignFile b) (bundles_loop files sb) = 0 := by
  intro files
  induction files with
  | nil => intro sb b _; rfl
  | cons g rest ih =>
    intro sb b h
    cases hb : is_file_from_bundle g with
    | false =>
      rw [bundles_loop_cons_not_bundle g rest sb hb]
      exact ih sb b h
    | true =>
      by_cases hm : g.relative_filepath.take 1 ∈ sb
      · rw [bundles_loop_cons_mem g rest sb hb hm]
        exact ih sb b h
      · rw [bundles_loop_cons_new g rest sb hb hm,
          countEvent_cons, countEvent_cons]
        have hne : Event.codesignFile
              (⟨g.base_dir, g.relative_filepath.take 1⟩ :
                AbsoluteAndRelativeFileName)
            ≠ Event.codesignFile b := by
          intro hc
          injection hc with hc2
          rw [← hc2] at h
          exact hm h
        have hz := ih (g.relative_filepath.take 1 :: sb) b
          (List.mem_cons_of_mem _ h)
        simp [hne, hz]

/-- The loop signs any given bundle at most once. -/
lemma bundles_loop_count_le_one :
    ∀ (files : List AbsoluteAndRelativeFileName) (sb : List (List String))
      (b : AbsoluteAndRelativeFileName),
      countEvent (Event.codesignFile b) (bundles_loop files sb) ≤ 1 := by
  intro files
  induction files with
  | nil =>
    intro sb b
    simp [countEvent, bundles_loop]
  | cons g rest ih =>
    intro sb b
    cases hb : is_file_from_bundle g with
    | false =>
      rw [bundles_loop_cons_not_bundle g rest sb hb]
      exact ih sb b
    | true =>
      by_cases hm : g.relative_filepath.take 1 ∈ sb
      · rw [bundles_loop_cons_mem g rest sb hb hm]
        exact ih sb b
      · rw [bundles_loop_cons_new g rest sb hb hm,
          countEvent_cons, countEvent_cons]
        by_cases he :
            (⟨g.base_dir, g.relative_filepath.take 1⟩ :
              AbsoluteAndRelativeFileName) = b
        · have hz := bundles_loop_count_zero_of_mem rest
            (g.relative_filepath.take 1 :: sb) b
            (by rw [← he]; exact List.mem_cons_self _ _)
          simp [he, hz]
        · have hne : Event.codesignFile
                (⟨g.base_dir, g.relative_filepath.take 1⟩ :
                  AbsoluteAndRelativeFileName)
              ≠ Event.codesignFile b := by
            intro hc
            injection hc with hc2
            exact he hc2
          have hrec := ih (g.relative_filepath.take 1 :: sb) b
          simp [hne]
          exact hrec

/-- If some file of the list comes from the bundle `(bd, name)` and every
file whose first segment is `name` has base directory `bd`, and `name` is
not yet in the signed set, the loop signs that bundle exactly once. -/
lemma bundles_loop_count_eq_one :
    ∀ (files : List AbsoluteAndRelativeFileName) (sb : List (List String))
      (bd name : String),
      (∃ f ∈ files, is_file_from_bundle f = true ∧ f.base_dir = bd
        ∧ f.relative_filepath.take 1 = [name]) →
      (∀ f ∈ files, f.relative_filepath.take 1 = [name] → f.base_dir = bd) →
      [name] ∉ sb →
      countEvent (Event.codesignFile ⟨bd, [name]⟩)
        (bundles_loop files sb) = 1 := by
  intro files
  induction files with
  | nil =>
    intro sb bd name hex _ _
    rcases hex with ⟨f, hf, _⟩
    exact absurd hf (List.not_mem_nil f)
  | cons g rest ih =>
    intro sb bd name hex hall hset
    cases hb : is_file_from_bundle g with
    | false =>
      rw [bundles_loop_cons_not_bundle g rest sb hb]
      refine ih sb bd name ?_ (fun f hf ht => hall f (List.mem_cons_of_mem g hf) ht) hset
      rcases hex with ⟨f, hf, hfb, hfbd, hft⟩
      cases List.mem_cons.mp hf with
      | inl heq =>
        rw [heq, hb] at hfb
        exact absurd hfb (by simp)
      | inr hmem => exact ⟨f, hmem, hfb, hfbd, hft⟩
    | true =>
      by_cases hm : g.relative_filepath.take 1 ∈ sb
      · have hq : g.relative_filepath.take 1 ≠ [name] := by
          intro hq
          rw [hq] at hm
          exact hset hm
        rw [bundles_loop_cons_mem g rest sb hb hm]
        refine ih sb bd name ?_ (fun f hf ht => hall f (List.mem_cons_of_mem g hf) ht) hset
        rcases hex with ⟨f, hf, hfb, hfbd, hft⟩
        cases List.mem_cons.mp hf with
        | inl heq =>
          rw [heq] at hft
          exact absurd hft hq
        | inr hmem => exact ⟨f, hmem, hfb, hfbd, hft⟩
      · by_cases hq : g.relative_filepath.take 1 = [name]
        · have hbd : g.base_dir = bd := hall g (List.mem_cons_self g rest) hq
          rw [bundles_loop_cons_new g rest sb hb hm,
            countEvent_cons, countEvent_cons]
          have hz : countEvent (Event.codesignFile ⟨bd, [name]⟩)
              (bundles_loop rest ([name] :: sb)) = 0 :=
            bundles_loop_count_zero_of_mem rest ([name] :: sb) ⟨bd, [name]⟩
              (List.mem_cons_self [name] sb)
          rw [hq, hbd]
          simp [hz]
        · rw [bundles_loop_cons_new g rest sb hb hm,
            countEvent_cons, countEvent_cons]
          have hne : Event.codesignFile
                (⟨g.base_dir, g.relative_filepath.take 1⟩ :
                  AbsoluteAndRelativeFileName)
              ≠ Event.codesignFile ⟨bd, [name]⟩ := by
            intro hc
            injection hc with hc2
            exact hq (congrArg AbsoluteAndRelativeFileName.relative_filepath hc2)
          have hrec : countEvent (Event.codesignFile ⟨bd, [name]⟩)
              (bundles_loop rest (g.relative_filepath.take 1 :: sb)) = 1 := by
            refine ih (g.relative_filepath.take 1 :: sb) bd name ?_
              (fun f hf ht => hall f (List.mem_cons_of_mem g hf) ht) ?_
            · rcases hex with ⟨f, hf, hfb, hfbd, hft⟩
              cases List.mem_cons.mp hf with
              | inl heq =>
                rw [heq] at hft
                exact absurd hft hq
              | inr hmem => exact ⟨f, hmem, hfb, hfbd, hft⟩
            · intro hin
              cases List.mem_cons.mp hin with
              | inl heq => exact hq heq.symm
              | inr hmem => exact hset hmem
          simp [hne, hrec]

/-- C3 counterexample: dedup in `codesign_bundles` keys on the bundle's
relative path only, not on the full bundle identity.  In this list the
last two files both come from the bundle `(/other, Foo.app)`, yet that
bundle is signed zero times — not exactly once — because an earlier file
from `(/out, Foo.app)` already put `Foo.app` in the signed set. -/
theorem C3_counterexample :
    countEvent (Event.codesignFile ⟨"/other", ["Foo.app"]⟩)
      (codesign_bundles
        [⟨"/out", ["Foo.app", "a"]⟩,
         ⟨"/other", ["Foo.app", "x"]⟩,
         ⟨"/other", ["Foo.app", "y"]⟩]).1 = 0 := by decide

/-- C3 (amended): `codesign_bundles` signs any given bundle descriptor at
most once; and it signs the bundle `(bd, name)` exactly once whenever
some file of the list comes from it and every file of the list whose
first path segment is `name` has base directory `bd` — independently of
which of those files appears first. -/
theorem C3_bundle_dedup :
    (∀ (files : List AbsoluteAndRelativeFileName)
        (b : AbsoluteAndRelativeFileName),
        countEvent (Event.codesignFile b) (codesign_bundles files).1 ≤ 1)
    ∧ (∀ (files : List AbsoluteAndRelativeFileName) (bd name : String),
        (∃ f ∈ files, is_file_from_bundle f = true ∧ f.base_dir = bd
          ∧ f.relative_filepath.take 1 = [name]) →
        (∀ f ∈ files, f.relative_filepath.take 1 = [name] →
          f.base_dir = bd) →
        countEvent (Event.codesignFile ⟨bd, [name]⟩)
          (codesign_bundles files).1 = 1) := by
  constructor
  · intro files b
    exact bundles_loop_count_le_one files [] b
  · intro files bd name hex hall
    exact bundles_loop_count_eq_one files [] bd name hex hall
      (List.not_mem_nil [name])

/-- C3 witness: a list with two member files of `(/out, Foo.app)` and one
file of another bundle signs `Foo.app` exactly once. -/
theorem C3_witness :
    countEvent (Event.codesignFile ⟨"/out", ["Foo.app"]⟩)
      (codesign_bundles
        [⟨"/out", ["Foo.app", "Contents", "MacOS", "Foo"]⟩,
         ⟨"/out", ["Foo.app", "Contents", "Resources", "lib.dylib"]⟩,
         ⟨"/out", ["Bar.app", "z"]⟩]).1 = 1 :=
  C3_bundle_dedup.2
    [⟨"/out", ["Foo.app", "Contents", "MacOS", "Foo"]⟩,
     ⟨"/out", ["Foo.app", "Contents", "Resources", "lib.dylib"]⟩,
     ⟨"/out", ["Bar.app", "z"]⟩]
    "/out" "Foo.app" (by decide) (by decide)

/-- Concatenating paired traces preserves the pairing invariant. -/
lemma pairedFrom_append :
    ∀ (t1 : List Event),
      ∀ (t2 : List Event) (s : Option AbsoluteAndRelativeFileName),
        pairedFrom s t1 = true → pairedFrom none t2 = true →
        pairedFrom s (t1 ++ t2) = true := by
  intro t1
  induction t1 with
  | nil =>
    intro t2 s h1 h2
    cases s with
    | none => simpa using h2
    | some f => simp [pairedFrom] at h1
  | cons e rest ih =>
    intro t2 s h1 h2
    cases s with
    | none =>
      cases e with
      | removeSignature f =>
        exact ih t2 (some f) h1 h2
      | codesignFile f => simp [pairedFrom] at h1
      | signedFilesSummary n =>
        exact ih t2 none h1 h2
    | some f =>
      cases e with
      | removeSignature g => simp [pairedFrom] at h1
      | codesignFile g =>
        simp only [pairedFrom, Bool.and_eq_true] at h1
        simp only [List.cons_append, pairedFrom, Bool.and_eq_true]
        exact ⟨h1.1, ih t2 none h1.2 h2⟩
      | signedFilesSummary n => simp [pairedFrom] at h1

/-- The per-file pass trace is a sequence of remove/sign pairs. -/
lemma pairedFrom_all_files_trace
    (files : List AbsoluteAndRelativeFileName) :
    pairedFrom none (all_files_trace files) = true := by
  induction files with
  | nil => rfl
  | cons f rest ih =>
    by_cases h : check_file_is_to_be_signed f = true
    · simp [all_files_trace, h, pairedFrom, ih]
    · simp [all_files_trace, h, ih]

/-- The bundle pass trace is a sequence of remove/sign pairs. -/
lemma pairedFrom_bundles_loop :
    ∀ (files : List AbsoluteAndRelativeFileName)
      (sb : List (List String)),
      pairedFrom none (bundles_loop files sb) = true := by
  intro files
  induction files with
  | nil => intro sb; rfl
  | cons f rest ih =>
    intro sb
    cases hb : is_file_from_bundle f with
    | false =>
      rw [bundles_loop_cons_not_bundle f rest sb hb]
      exact ih sb
    | true =>
      by_cases hm : f.relative_filepath.take 1 ∈ sb
      · rw [bundles_loop_cons_mem f rest sb hb hm]
        exact ih sb
      · rw [bundles_loop_cons_new f rest sb hb hm]
        simp [pairedFrom, ih]

/-- The whole run produces a trace of remove/sign pairs interleaved with
summary events. -/
lemma remove_sign_paired_sign_all_files
    (files : List AbsoluteAndRelativeFileName) :
    remove_sign_paired (sign_all_files files) = true := by
  have hs : sign_all_files files
      = (all_files_trace files
          ++ (if have_ignored_files files then
                [Event.signedFilesSummary (signed_files files).length]
              else []))
        ++ bundles_loop files [] := rfl
  rw [remove_sign_paired, hs]
  refine pairedFrom_append _ _ none
    (pairedFrom_append _ _ none (pairedFrom_all_files_trace files) ?_)
    (pairedFrom_bundles_loop files [])
  split <;> rfl

/-- Structure of a paired trace: empty, a summary followed by a paired
trace, or a matching remove/sign pair followed by a paired trace. -/
lemma pairedFrom_cases (t : List Event) (h : pairedFrom none t = true) :
    t = []
    ∨ (∃ n t', t = Event.signedFilesSummary n :: t'
        ∧ pairedFrom none t' = true)
    ∨ (∃ f t', t = Event.removeSignature f :: Event.codesignFile f :: t'
        ∧ pairedFrom none t' = true) := by
  cases t with
  | nil => exact Or.inl rfl
  | cons e rest =>
    cases e with
    | removeSignature f =>
      cases rest with
      | nil => simp [pairedFrom] at h
      | cons e2 rest2 =>
        cases e2 with
        | codesignFile g =>
          simp only [pairedFrom, Bool.and_eq_true, decide_eq_true_eq] at h
          obtain ⟨hfg, hp⟩ := h
          subst hfg
          exact Or.inr (Or.inr ⟨f, rest2, rfl, hp⟩)
        | removeSignature g => simp [pairedFrom] at h
        | signedFilesSummary n => simp [pairedFrom] at h
    | codesignFile f => simp [pairedFrom] at h
    | signedFilesSummary n => exact Or.inr (Or.inl ⟨n, rest, rfl, h⟩)

/-- In a paired trace, every sign event sits right after its remove
event, no sign event opens the trace, and every remove event is followed
right away by its sign event. -/
lemma paired_adjacency :
    ∀ (n : Nat) (t : List Event), t.length ≤ n →
      pairedFrom none t = true →
      (∀ (i : Nat) (f : AbsoluteAndRelativeFileName),
          t[i + 1]? = some (Event.codesignFile f) →
          t[i]? = some (Event.removeSignature f))
      ∧ (∀ f : AbsoluteAndRelativeFileName,
          ¬ t[0]? = some (Event.codesignFile f))
      ∧ (∀ (i : Nat) (f : AbsoluteAndRelativeFileName),
          t[i]? = some (Event.removeSignature f) →
          t[i + 1]? = some (Event.codesignFile f)) := by
  intro n
  induction n with
  | zero =>
    intro t hlen _
    have ht : t = [] := List.eq_nil_of_length_eq_zero (Nat.le_zero.mp hlen)
    subst ht
    refine ⟨fun i f h => ?_, fun f h => ?_, fun i f h => ?_⟩ <;> simp at h
  | succ n ih =>
    intro t hlen hp
    rcases pairedFrom_cases t hp with ht | ⟨m, t', ht, hp'⟩ | ⟨f, t', ht, hp'⟩
    · subst ht
      refine ⟨fun i f h => ?_, fun f h => ?_, fun i f h => ?_⟩ <;> simp at h
    · subst ht
      have hlen' : t'.length ≤ n := by
        simp only [List.length_cons] at hlen
        omega
      obtain ⟨ih1, ih2, ih3⟩ := ih t' hlen' hp'
      refine ⟨?_, ?_, ?_⟩
      · intro i g h
        cases i with
        | zero =>
          rw [List.getElem?_cons_succ] at h
          exact absurd h (ih2 g)
        | succ k =>
          rw [List.getElem?_cons_succ] at h ⊢
          exact ih1 k g h
      · intro g h
        rw [List.getElem?_cons_zero] at h
        simp at h
      · intro i g h
        cases i with
        | zero =>
          rw [List.getElem?_cons_zero] at h
          simp at h
        | succ k =>
          rw [List.getElem?_cons_succ] at h ⊢
          exact ih3 k g h
    · subst ht
      have hlen' : t'.length ≤ n := by
        simp only [List.length_cons] at hlen
        omega
      obtain ⟨ih1, ih2, ih3⟩ := ih t' hlen' hp'
      refine ⟨?_, ?_, ?_⟩
      · intro i g h
        cases i with
        | zero =>
          rw [List.getElem?_cons_succ, List.getElem?_cons_zero] at h
          have hfg : f = g := by
            have := Option.some.inj h
            injection this with h2
          subst hfg
          rfl
        | succ k =>
          cases k with
          | zero =>
            rw [List.getElem?_cons_succ, List.getElem?_cons_succ] at h
            exact absurd h (ih2 g)
          | succ m =>
            rw [List.getElem?_cons_succ, List.getElem?_cons_succ] at h ⊢
            exact ih1 m g h
      · intro g h
        rw [List.getElem?_cons_zero] at h
        simp at h
      · intro i g h
        cases i with
        | zero =>
          rw [List.getElem?_cons_zero] at h
          have hfg : f = g := by
            have := Option.some.inj h
            injection this with h2
          subst hfg
          simp
        | succ k =>
          cases k with
          | zero =>
            rw [List.getElem?_cons_succ, List.getElem?_cons_zero] at h
            simp at h
          | succ m =>
            rw [List.getElem?_cons_succ, List.getElem?_cons_succ] at h ⊢
            exact ih3 m g h

/-- C6: in every run, a sign command appears only immediately after the
remove-signature command on the same artifact — never first in the trace
— and every remove-signature command is immediately followed by the sign
command on the same artifact, unconditionally. -/
theorem C6_remove_before_sign (files : List AbsoluteAndRelativeFileName) :
    (∀ (i : Nat) (f : AbsoluteAndRelativeFileName),
        (sign_all_files files)[i + 1]? = some (Event.codesignFile f) →
        (sign_all_files files)[i]? = some (Event.removeSignature f))
    ∧ (∀ f : AbsoluteAndRelativeFileName,
        ¬ (sign_all_files files)[0]? = some (Event.codesignFile f))
    ∧ (∀ (i : Nat) (f : AbsoluteAndRelativeFileName),
        (sign_all_files files)[i]? = some (Event.removeSignature f) →
        (sign_all_files files)[i + 1]? = some (Event.codesignFile f)) :=
  paired_adjacency (sign_all_files files).length (sign_all_files files)
    le_rfl (remove_sign_paired_sign_all_files files)

/-- C6 witness: for a single eligible file, position 0 of the trace is
its remove-signature command and position 1 is its sign command. -/
theorem C6_witness :
    (sign_all_files [⟨"/out", ["standalone.dylib"]⟩])[1]?
      = some (Event.codesignFile ⟨"/out", ["standalone.dylib"]⟩) :=
  (C6_remove_before_sign [⟨"/out", ["standalone.dylib"]⟩]).2.2 0
    ⟨"/out", ["standalone.dylib"]⟩ (by decide)
